import Mathlib

/-!
Verification of the bgbot auto-battler simulator core
(`src/bgbot/simulator/{pool,minion,board,combat,events,player,tavern}.py`).

The Python modules are shallowly embedded: Python dicts become association
lists (Python ≥3.7 dicts preserve insertion order), Python ints become `Int`
(or `Nat` where the source value is a count), randomness (`random.choices`,
`random.choice`, the coin flip) becomes an explicit stream of naturals, and
code that can raise returns `Except` (paired with the post-mutation state
where the source mutates before raising).
-/

namespace BgBot

/-- Association-list lookup, modelling Python `dict[k]` / `dict.get(k)`.
Keys built by the embedded constructors are unique, so first-match lookup
agrees with Python dict semantics. -/
def dget {κ α : Type} [DecidableEq κ] : List (κ × α) → κ → Option α
  | [], _ => none
  | p :: rest, k => if p.1 = k then some p.2 else dget rest k

/-- Association-list store, modelling Python `dict[k] = v` (updates the value
of an existing key; on unique-key lists this equals updating the first hit). -/
def dset {κ α : Type} [DecidableEq κ] (l : List (κ × α)) (k : κ) (v : α) :
    List (κ × α) :=
  l.map (fun p => if p.1 = k then (p.1, v) else p)

theorem dget_dset_ne {κ α : Type} [DecidableEq κ] (l : List (κ × α))
    (k k' : κ) (v : α) (h : k' ≠ k) : dget (dset l k v) k' = dget l k' := by
  induction l with
  | nil => rfl
  | cons p rest ih =>
      simp only [dset, List.map_cons] at ih ⊢
      have hk : k ≠ k' := fun he => h he.symm
      by_cases hp : p.1 = k
      · simp [dget, hp, hk, ih]
      · by_cases hp' : p.1 = k'
        · simp [dget, hp, hp', h]
        · simp [dget, hp, hp', ih]

theorem dget_dset_self {κ α : Type} [DecidableEq κ] (l : List (κ × α))
    (k : κ) (v w : α) (h : dget l k = some w) :
    dget (dset l k v) k = some v := by
  induction l with
  | nil => simp [dget] at h
  | cons p rest ih =>
      simp only [dset, List.map_cons] at ih ⊢
      by_cases hp : p.1 = k
      · simp [dget, hp]
      · simp only [dget, if_neg hp] at h
        simp [dget, hp, ih h]

theorem dget_dset_none {κ α : Type} [DecidableEq κ] (l : List (κ × α))
    (k k' : κ) (v : α) (h : dget l k' = none) :
    dget (dset l k v) k' = none := by
  induction l with
  | nil => rfl
  | cons p rest ih =>
      simp only [dset, List.map_cons] at ih ⊢
      by_cases hp' : p.1 = k'
      · simp [dget, hp'] at h
      · simp only [dget, if_neg hp'] at h
        by_cases hp : p.1 = k
        · have hk' : k ≠ k' := fun he => hp' (hp.trans he)
          simp [dget, hp, hk', ih h]
        · simp [dget, hp, hp', ih h]

theorem dset_keys {κ α : Type} [DecidableEq κ] (l : List (κ × α))
    (k : κ) (v : α) : (dset l k v).map Prod.fst = l.map Prod.fst := by
  induction l with
  | nil => rfl
  | cons p rest ih =>
      simp only [dset, List.map_cons] at ih ⊢
      by_cases hp : p.1 = k
      · simp [hp, ih]
      · simp [hp, ih]

theorem dget_mem {κ α : Type} [DecidableEq κ] (l : List (κ × α)) (k : κ)
    (v : α) (h : dget l k = some v) : (k, v) ∈ l := by
  induction l with
  | nil => simp [dget] at h
  | cons p rest ih =>
      by_cases hp : p.1 = k
      · simp only [dget, if_pos hp, Option.some.injEq] at h
        have hp2 : p = (k, v) := by
          obtain ⟨a, b⟩ := p
          simp only at hp h
          rw [hp, h]
        rw [hp2]
        exact List.mem_cons_self _ _
      · simp only [dget, if_neg hp] at h
        exact List.mem_cons_of_mem _ (ih h)

theorem mem_dget_of_nodup {κ α : Type} [DecidableEq κ] (l : List (κ × α))
    (k : κ) (v : α) (hnd : (l.map Prod.fst).Nodup) (h : (k, v) ∈ l) :
    dget l k = some v := by
  induction l with
  | nil => simp at h
  | cons p rest ih =>
      rw [List.map_cons, List.nodup_cons] at hnd
      rcases List.mem_cons.mp h with h1 | h1
      · rw [← h1]
        simp [dget]
      · have hk : p.1 ≠ k := by
          intro he
          apply hnd.1
          rw [he]
          exact List.mem_map_of_mem Prod.fst h1
        simp only [dget, if_neg hk]
        exact ih hnd.2 h1

/-! ## `minion.py`: the `Tribe` enum -/

/-- All possible minion tribes (`minion.py`, class `Tribe`). -/
inductive Tribe
  | MECH | MURLOC | QUILBOAR | UNDEAD | NAGA | ELEMENTAL
  | DEMON | PIRATE | BEAST | DRAGON | NEUTRAL | ALL
deriving DecidableEq

/-! ## `pool.py`: blueprints (`MinionData`) and the master table -/

/-- Static blueprint for a minion (`pool.py`, dataclass `MinionData`).
`keywords` and `effects` default to `[]` in the source. -/
structure MinionData where
  name : String
  tier : Nat
  attack : Int
  health : Int
  tribes : List Tribe
  keywords : List String
  effects : List String
deriving DecidableEq

set_option maxHeartbeats 1000000 in
open Tribe in
/-- The master blueprint table (`pool.py`, `ALL_MINIONS_DATA`), transcribed
entry by entry; omitted `keywords`/`effects` are the `[]` defaults. -/
def ALL_MINIONS_DATA : List MinionData := [
  ⟨"Wrath Weaver", 1, 1, 3, [DEMON], [], []⟩,
  ⟨"Vulgar Homunculus", 1, 2, 4, [DEMON], ["Taunt"], []⟩,
  ⟨"Micro Mummy", 1, 1, 2, [MECH, UNDEAD], [], []⟩,
  ⟨"Mecharoo", 1, 1, 1, [MECH], ["Deathrattle"], []⟩,
  ⟨"Scallywag", 1, 2, 1, [PIRATE], [], []⟩,
  ⟨"Deckhand", 1, 2, 2, [PIRATE], [], []⟩,
  ⟨"Sellemental", 1, 2, 2, [ELEMENTAL], [], []⟩,
  ⟨"Refreshing Anomaly", 1, 1, 3, [ELEMENTAL], [], []⟩,
  ⟨"Alleycat", 1, 1, 1, [BEAST], [], []⟩,
  ⟨"Tabbycat", 1, 2, 1, [BEAST], [], []⟩,
  ⟨"Murloc Tidecaller", 1, 1, 2, [MURLOC], [], []⟩,
  ⟨"Murloc Tinyfin", 1, 1, 1, [MURLOC], [], []⟩,
  ⟨"Dragonspawn Lieutenant", 1, 2, 3, [DRAGON], [], []⟩,
  ⟨"Red Whelp", 1, 1, 2, [DRAGON], [], []⟩,
  ⟨"Acolyte of CThun", 1, 2, 2, [NEUTRAL], ["Taunt", "Reborn"], []⟩,
  ⟨"Micro Machine", 1, 1, 2, [NEUTRAL], [], []⟩,
  ⟨"Manasaber", 2, 4, 2, [BEAST], [], []⟩,
  ⟨"Scavenging Hyena", 2, 3, 2, [BEAST], [], []⟩,
  ⟨"Annoy-o-Tron", 2, 1, 2, [MECH], ["Taunt", "Divine Shield"], []⟩,
  ⟨"Harvest Golem", 2, 2, 3, [MECH], ["Deathrattle"], []⟩,
  ⟨"Rockpool Hunter", 2, 3, 2, [MURLOC], [], []⟩,
  ⟨"Murloc Warleader", 2, 3, 3, [MURLOC], ["Aura"], []⟩,
  ⟨"Deck Swabbie", 2, 2, 3, [PIRATE], [], []⟩,
  ⟨"Freedealing Gambler", 2, 3, 3, [PIRATE], [], []⟩,
  ⟨"Imprisoner", 2, 3, 3, [DEMON], ["Taunt", "Deathrattle"], []⟩,
  ⟨"Nathrezim Overseer", 2, 2, 4, [DEMON], ["Battlecry"], []⟩,
  ⟨"Harvest Sprite", 2, 3, 2, [ELEMENTAL], [], []⟩,
  ⟨"Party Elemental", 2, 3, 3, [ELEMENTAL], ["Aura"], []⟩,
  ⟨"Glyph Guardian", 2, 3, 2, [DRAGON], [], []⟩,
  ⟨"Steward of Time", 2, 2, 4, [DRAGON], ["Aura"], []⟩,
  ⟨"Rat Pack", 3, 2, 2, [BEAST], ["Deathrattle"], []⟩,
  ⟨"Monstrous Macaw", 3, 3, 3, [BEAST], ["Trigger"], []⟩,
  ⟨"Metaltooth Leaper", 3, 3, 3, [MECH], ["Battlecry"], []⟩,
  ⟨"Screwjank Clunker", 3, 4, 3, [MECH], ["Battlecry"], []⟩,
  ⟨"Soul Juggler", 3, 3, 5, [DEMON], ["Aura"], []⟩,
  ⟨"Floating Watcher", 3, 4, 4, [DEMON], [], []⟩,
  ⟨"Cave Hydra", 4, 2, 4, [BEAST], ["Cleave"], []⟩,
  ⟨"Savannah Highmane", 4, 6, 5, [BEAST], ["Deathrattle"], []⟩,
  ⟨"Piloted Shredder", 4, 4, 3, [MECH], ["Deathrattle"], []⟩,
  ⟨"Security Rover", 4, 2, 6, [MECH], ["Taunt", "Summon"], []⟩,
  ⟨"Ring Matron", 4, 6, 4, [DEMON], ["Taunt", "Deathrattle"], []⟩,
  ⟨"Bigfernal", 4, 4, 4, [DEMON], ["Scaling"], []⟩,
  ⟨"Toxfin", 4, 2, 4, [MURLOC], ["Battlecry"], []⟩,
  ⟨"Felfin Navigator", 4, 4, 4, [MURLOC], ["Battlecry"], []⟩,
  ⟨"Goldgrubber", 4, 2, 2, [PIRATE], ["Scaling"], []⟩,
  ⟨"Southsea Strongarm", 4, 5, 4, [PIRATE], ["Battlecry"], []⟩,
  ⟨"Wildfire Elemental", 4, 6, 4, [ELEMENTAL], ["Cleave"], []⟩,
  ⟨"Majordomo Executus", 4, 5, 3, [ELEMENTAL], ["Aura"], []⟩,
  ⟨"Drakonid Enforcer", 4, 4, 5, [DRAGON], ["Scaling"], []⟩,
  ⟨"Cobalt Scalebane", 4, 5, 5, [DRAGON], ["Aura"], []⟩,
  ⟨"Mama Bear", 5, 5, 5, [BEAST], ["Aura"], []⟩,
  ⟨"Ironhide Direhorn", 5, 7, 7, [BEAST], ["Summon"], []⟩,
  ⟨"Foe Reaper 4000", 5, 6, 9, [MECH], ["Cleave"], []⟩,
  ⟨"Kangors Apprentice", 5, 3, 6, [MECH], ["Deathrattle"], []⟩,
  ⟨"Voidlord", 5, 3, 9, [DEMON], ["Taunt", "Deathrattle"], []⟩,
  ⟨"MalGanis", 5, 9, 7, [DEMON], ["Aura"], []⟩,
  ⟨"King Bagurgle", 5, 6, 3, [MURLOC], ["Deathrattle"], []⟩,
  ⟨"Primalfin Lookout", 5, 3, 2, [MURLOC], ["Battlecry"], []⟩,
  ⟨"Capn Hoggarr", 5, 6, 6, [PIRATE], ["Scaling"], []⟩,
  ⟨"Seabreaker Goliath", 5, 8, 6, [PIRATE], ["Windfury"], []⟩,
  ⟨"Lieutenant Garr", 5, 8, 1, [ELEMENTAL], ["Scaling"], []⟩,
  ⟨"Nomi, Kitchen Nightmare", 5, 4, 4, [ELEMENTAL], ["Aura"], []⟩,
  ⟨"Razorgore, the Untamed", 5, 4, 6, [DRAGON], ["Scaling"], []⟩,
  ⟨"Murozond", 5, 5, 5, [DRAGON], ["Battlecry"], []⟩,
  ⟨"Ghastcoiler", 6, 7, 7, [BEAST], ["Deathrattle"], []⟩,
  ⟨"Goldrinn, the Great Wolf", 6, 4, 4, [BEAST], ["Deathrattle"], []⟩,
  ⟨"Omega Buster", 6, 6, 6, [MECH], ["Deathrattle"], []⟩,
  ⟨"Holy Mecherel", 6, 8, 4, [MECH], ["Divine Shield"], []⟩,
  ⟨"Imp Mama", 6, 6, 8, [DEMON], ["Summon"], []⟩,
  ⟨"Annihilan Battlemaster", 6, 3, 1, [DEMON], ["Battlecry"], []⟩,
  ⟨"Gentle Megasaur", 6, 5, 4, [MURLOC], ["Battlecry"], []⟩,
  ⟨"Felfin General", 6, 8, 6, [MURLOC], ["Aura"], []⟩,
  ⟨"Dread Admiral Eliza", 6, 6, 7, [PIRATE], ["Aura"], []⟩,
  ⟨"The Tide Razor", 6, 8, 4, [PIRATE], ["Deathrattle"], []⟩,
  ⟨"Lil Rag", 6, 4, 4, [ELEMENTAL], ["Scaling"], []⟩,
  ⟨"Amalgadon", 6, 6, 6, [ELEMENTAL, ALL], ["Battlecry"], []⟩,
  ⟨"Kalecgos, Arcane Aspect", 6, 4, 12, [DRAGON], ["Aura"], []⟩,
  ⟨"Nadina the Red", 6, 7, 4, [DRAGON], ["Deathrattle"], []⟩]

/-- `pool.py`, `COPIES_PER_TIER.get(tier, 0)`: copies of each minion by tier,
with the Python `.get` default of 0 for tiers outside the table. -/
def copiesPerTier (tier : Nat) : Nat :=
  if tier = 1 then 15 else if tier = 2 then 15 else if tier = 3 then 13
  else if tier = 4 then 11 else if tier = 5 then 9 else if tier = 6 then 7
  else 0

/-! ## `minion.py`: the `Minion` dataclass and its constructor call -/

/-- A constructed `Minion` (`minion.py`, dataclass `Minion`). The Python
`owner: Player` object reference is an object id (`Nat`); the
`_effects_instances` list is determined by `effects` (an
`EternalKnightEffect` exists iff the string `eternal_knight` is listed), so
it is not a separate field here. -/
structure Minion where
  name : String
  attack : Int
  health : Int
  tier : Nat
  owner : Nat
  tribes : List Tribe
  keywords : List String
  effects : List String
deriving DecidableEq

/-- Keyword arguments of a Python call `Minion(...)`. A missing keyword is
`none`; the dataclass fields `name/attack/health/tier/owner/tribes` have no
defaults, `keywords`/`effects` default to fresh empty lists. -/
structure MinionKwargs where
  name : Option String := none
  attack : Option Int := none
  health : Option Int := none
  tier : Option Nat := none
  owner : Option Nat := none
  tribes : Option (List Tribe) := none
  keywords : Option (List String) := none
  effects : Option (List String) := none

/-- Python call semantics of `Minion(**kwargs)`: raises `TypeError` when a
required dataclass field (no default) is missing, then `__post_init__`
raises `ValueError` when `tribes` is empty. -/
def minionCall (a : MinionKwargs) : Except String Minion :=
  match a.name, a.attack, a.health, a.tier, a.owner, a.tribes with
  | some n, some atk, some hp, some t, some o, some tr =>
      if tr.isEmpty then
        .error ("ValueError: Minion must have at least one tribe.")
      else
        .ok ⟨n, atk, hp, t, o, tr, a.keywords.getD [], a.effects.getD []⟩
  | _, _, _, _, _, _ =>
      .error ("TypeError: Minion.__init__ missing required argument")

/-! ## `pool.py`: the `Pool` class -/

/-- Mutable pool state (`pool.py`, class `Pool`): the static blueprint dict
and the dynamic count dict, both keyed by minion name in insertion order. -/
structure PoolState where
  minion_blueprints : List (String × MinionData)
  available_counts : List (String × Int)
deriving DecidableEq

/-- Python `set.add` realised on a membership list: a no-op when the element
is present, otherwise the element joins the set. -/
def setAdd (s : List Tribe) (t : Tribe) : List Tribe :=
  if t ∈ s then s else s ++ [t]

/-- `minion_tribes = set(minion_data.tribes) if minion_data.tribes else
{Tribe.NEUTRAL}` followed by `not minion_tribes.isdisjoint(active_tribes)`
(`pool.py`, `Pool.__init__`). -/
def tribeEligible (md : MinionData) (active : List Tribe) : Bool :=
  let mts := if md.tribes.isEmpty then [Tribe.NEUTRAL] else md.tribes
  mts.any (fun t => active.contains t)

/-- `Pool.__init__(active_tribes)`. The constructor mutates the caller's set
in place (`active_tribes.add(Tribe.NEUTRAL)`); the second component is the
value of the caller's set object after construction. -/
def Pool.init (active_tribes : List Tribe) : PoolState × List Tribe :=
  let tribes := setAdd active_tribes Tribe.NEUTRAL
  let included := ALL_MINIONS_DATA.filter (fun md => tribeEligible md tribes)
  (⟨included.map (fun md => (md.name, md)),
    included.map (fun md => (md.name, (copiesPerTier md.tier : Int)))⟩,
   tribes)

/-- The dict comprehension at the top of `Pool.roll`: entries of
`available_counts` with positive count whose blueprint tier is within the
tavern tier. (The blueprint lookup `self.minion_blueprints[name]` cannot
fail for pool-built states, whose two dicts share their keys.) -/
def PoolState.eligible (p : PoolState) (tavern_tier : Nat) :
    List (String × Int) :=
  p.available_counts.filter (fun nc =>
    decide (0 < nc.2) && (match dget p.minion_blueprints nc.1 with
                          | some bp => decide (bp.tier ≤ tavern_tier)
                          | none => false))

/-- Total weight of a population, as used by `random.choices`. -/
def totalWeight (l : List (String × Int)) : Nat :=
  (l.map (fun nc => nc.2.toNat)).sum

/-- One draw of `random.choices`: the uniform real `random() * total` lands
in the cumulative-weight interval of exactly one entry; the draw is
represented by the integer offset `r < total` of that landing point. -/
def pickByWeight : List (String × Int) → Nat → String
  | [], _ => ""
  | nc :: rest, r => if r < nc.2.toNat then nc.1 else pickByWeight rest (r - nc.2.toNat)

/-- `random.choices(eligible_names, weights=weights, k=k)` (`pool.py`,
`Pool.roll`): `k` draws, each consuming one value of the random stream,
all weighted by the same cumulative weights computed once at the call —
i.e. sampling WITH replacement over a fixed weight snapshot. -/
def choices (population : List (String × Int)) (rands : List Nat) (k : Nat) :
    List String :=
  (List.range k).map (fun i =>
    pickByWeight population ((rands.getD i 0) % totalWeight population))

/-- The names produced by the `random.choices` call inside
`Pool.roll(tavern_tier, num_to_roll)` (`chosen_names` in the source),
with `k` capped at the number of distinct eligible blueprints. -/
def PoolState.chosen_names (p : PoolState) (tavern_tier num_to_roll : Nat)
    (rands : List Nat) : List String :=
  let eligible := p.eligible tavern_tier
  choices eligible rands (min num_to_roll eligible.length)

/-- The `for name in chosen_names` loop of `Pool.roll`: decrement the
count, look up the blueprint, construct a fresh `Minion` from it. The
`Minion(...)` call passes `name/tier/attack/health/tribes/keywords` and no
`owner`, exactly as in the source. A raise propagates out of the loop with
the mutations made so far kept (the pool object was mutated in place). -/
def PoolState.rollLoop (p : PoolState) :
    List String → Except String (List Minion) × PoolState
  | [] => (.ok [], p)
  | nm :: rest =>
      let c := (dget p.available_counts nm).getD 0
      let p1 : PoolState :=
        { p with available_counts := dset p.available_counts nm (c - 1) }
      match dget p1.minion_blueprints nm with
      | none => (.error ("KeyError"), p1)
      | some bp =>
          match minionCall { name := some bp.name, tier := some bp.tier,
                             attack := some bp.attack, health := some bp.health,
                             tribes := some bp.tribes,
                             keywords := some bp.keywords } with
          | .error e => (.error e, p1)
          | .ok m =>
              match p1.rollLoop rest with
              | (.ok ms, p2) => (.ok (m :: ms), p2)
              | (.error e, p2) => (.error e, p2)

/-- `Pool.roll(tavern_tier, num_to_roll)` with the randomness of
`random.choices` made explicit. Returns the Python result (list of fresh
minions, or the exception) together with the pool state afterwards. -/
def PoolState.roll (p : PoolState) (tavern_tier num_to_roll : Nat)
    (rands : List Nat) : Except String (List Minion) × PoolState :=
  let eligible := p.eligible tavern_tier
  if eligible.isEmpty then (.ok [], p)
  else p.rollLoop (p.chosen_names tavern_tier num_to_roll rands)

/-- `Pool.return_minion(minion_name)`: increment the count when the name is
pooled and below its tier's initial allotment; an unknown name is a logged
no-op. -/
def PoolState.return_minion (p : PoolState) (minion_name : String) :
    PoolState :=
  match dget p.available_counts minion_name with
  | none => p
  | some c =>
      match dget p.minion_blueprints minion_name with
      | none => p
      | some bp =>
          let max_copies : Int := copiesPerTier bp.tier
          if c < max_copies then
            { p with available_counts := dset p.available_counts minion_name (c + 1) }
          else p

/-! ## Claim C1: sampling inside a single roll -/

/-- A pool holding the two tier-1 neutral blueprints with one remaining copy
each (such counts arise after the other copies have been drawn). -/
def c1Pool : PoolState :=
  ⟨[("Acolyte of CThun", ⟨"Acolyte of CThun", 1, 2, 2, [Tribe.NEUTRAL], ["Taunt", "Reborn"], []⟩),
    ("Micro Machine", ⟨"Micro Machine", 1, 1, 2, [Tribe.NEUTRAL], [], []⟩)],
   [("Acolyte of CThun", 1), ("Micro Machine", 1)]⟩

/-- C1: refuted. With every eligible blueprint at remaining count 1,
`Pool.roll(1, 2)` hands its construction loop a duplicated name: the single
`random.choices` call draws every name against the same weight snapshot
(sampling with replacement), so no weight is decremented between draws and
the same blueprint can be drawn twice within one roll. -/
theorem roll_draws_duplicate_despite_unit_counts :
    (c1Pool.available_counts.all (fun nc => nc.2 == 1)) = true ∧
    c1Pool.chosen_names 1 2 [0, 0] =
      [("Acolyte of CThun"), ("Acolyte of CThun")] := by
  constructor
  · rfl
  · rfl

/-! ## Claim C2: roll crashes while constructing minions -/

/-- The pool of a game whose active tribe set is `{UNDEAD}`, as built by
`Pool(active_tribes={Tribe.UNDEAD})` (cf. `main.py`). -/
def undeadPool : PoolState := (Pool.init [Tribe.UNDEAD]).1

/-- C2: refuted. With eligible blueprints available, `Pool.roll` raises
instead of returning minions: the `Minion(...)` call inside the roll loop
omits the required dataclass field `owner` (which has no default and is
always passed elsewhere, cf. `main.py`), so every draw dies with a
`TypeError` before a list can be returned. -/
theorem roll_raises_type_error_on_nonempty_pool :
    undeadPool.eligible 1 ≠ [] ∧
    (undeadPool.roll 1 1 [0]).1 =
      .error ("TypeError: Minion.__init__ missing required argument") := by
  constructor
  · decide
  · rfl

/-! ## Claim C3: pool count bounds across roll/return sequences -/

/-- An operation on the shared pool: a shop roll (with its randomness) or a
return of a minion name. -/
inductive PoolOp
  | roll (tavern_tier num_to_roll : Nat) (rands : List Nat)
  | ret (name : String)

/-- The pool state left behind by one operation (a roll that raises has
still mutated the pool in place up to the raise). -/
def PoolState.applyOp (p : PoolState) : PoolOp → PoolState
  | .roll t n rs => (p.roll t n rs).2
  | .ret name => p.return_minion name

/-- The pool state after a sequence of roll/return operations. -/
def PoolState.applyOps (p : PoolState) (ops : List PoolOp) : PoolState :=
  ops.foldl PoolState.applyOp p

/-- The pool count invariant: count keys are unique (Python dict), every
counted name has a blueprint, and its count sits within
`0 ≤ count ≤ COPIES_PER_TIER[tier]`. -/
def PoolInv (p : PoolState) : Prop :=
  ((p.available_counts.map Prod.fst).Nodup) ∧
  ∀ name c, dget p.available_counts name = some c →
    ∃ bp, dget p.minion_blueprints name = some bp ∧
      0 ≤ c ∧ c ≤ (copiesPerTier bp.tier : Int)

theorem all_minion_names_nodup :
    (ALL_MINIONS_DATA.map MinionData.name).Nodup := by decide

theorem pickByWeight_mem (l : List (String × Int)) (r : Nat)
    (h : r < totalWeight l) : ∃ c, (pickByWeight l r, c) ∈ l ∧ 0 < c := by
  induction l generalizing r with
  | nil => simp [totalWeight] at h
  | cons nc rest ih =>
      by_cases hr : r < nc.2.toNat
      · refine ⟨nc.2, ?_, ?_⟩
        · rw [pickByWeight, if_pos hr]
          exact List.mem_cons_self _ _
        · omega
      · have h' : r - nc.2.toNat < totalWeight rest := by
          simp only [totalWeight, List.map_cons, List.sum_cons] at h
          simp only [totalWeight]
          omega
        obtain ⟨c, hmem, hc⟩ := ih (r - nc.2.toNat) h'
        rw [pickByWeight, if_neg hr]
        exact ⟨c, List.mem_cons_of_mem _ hmem, hc⟩

theorem mem_eligible (p : PoolState) (t : Nat) (nc : String × Int)
    (h : nc ∈ p.eligible t) : nc ∈ p.available_counts ∧ 0 < nc.2 := by
  have h' := List.mem_filter.mp h
  refine ⟨h'.1, ?_⟩
  have := h'.2
  rw [Bool.and_eq_true] at this
  exact of_decide_eq_true this.1

theorem totalWeight_pos (l : List (String × Int)) (hne : l ≠ [])
    (hpos : ∀ x ∈ l, 0 < x.2) : 0 < totalWeight l := by
  cases l with
  | nil => exact absurd rfl hne
  | cons nc rest =>
      have h1 : 0 < nc.2 := hpos nc (List.mem_cons_self _ _)
      simp only [totalWeight, List.map_cons, List.sum_cons]
      omega

theorem chosen_names_eq (p : PoolState) (t n : Nat) (rs : List Nat) :
    p.chosen_names t n rs =
      choices (p.eligible t) rs (min n (p.eligible t).length) := rfl

theorem roll_eq (p : PoolState) (t n : Nat) (rs : List Nat) :
    p.roll t n rs =
      if (p.eligible t).isEmpty then (.ok [], p)
      else p.rollLoop (p.chosen_names t n rs) := rfl

/-- The `Minion(...)` call inside `Pool.roll` passes no `owner`, so it
raises `TypeError` whatever the blueprint. -/
theorem minionCall_no_owner (bp : MinionData) :
    minionCall { name := some bp.name, tier := some bp.tier,
                 attack := some bp.attack, health := some bp.health,
                 tribes := some bp.tribes, keywords := some bp.keywords } =
      .error ("TypeError: Minion.__init__ missing required argument") := rfl

theorem rollLoop_cons_state (p : PoolState) (nm : String)
    (rest : List String) (bp : MinionData) (c : Int)
    (hget : dget p.available_counts nm = some c)
    (hbp : dget p.minion_blueprints nm = some bp) :
    (p.rollLoop (nm :: rest)).2 =
      { p with available_counts := dset p.available_counts nm (c - 1) } := by
  simp only [PoolState.rollLoop, hget, Option.getD_some, hbp,
    minionCall_no_owner]

theorem chosen_names_head (p : PoolState) (t n : Nat) (rs : List Nat)
    (nm : String) (rest : List String)
    (h : p.chosen_names t n rs = nm :: rest) :
    ∃ c, (nm, c) ∈ p.eligible t ∧ 0 < c := by
  rw [chosen_names_eq] at h
  unfold choices at h
  rcases hk : min n (p.eligible t).length with _ | k
  · rw [hk] at h
    simp at h
  · rw [hk, List.range_succ_eq_map, List.map_cons] at h
    have hnm : nm = pickByWeight (p.eligible t)
        ((rs.getD 0 0) % totalWeight (p.eligible t)) :=
      ((List.cons.injEq _ _ _ _).mp h).1.symm
    have hne : p.eligible t ≠ [] := by
      intro he
      rw [he] at hk
      simp at hk
    have hposall : ∀ x ∈ p.eligible t, 0 < x.2 := by
      intro x hx
      exact (mem_eligible p t x hx).2
    have htot : 0 < totalWeight (p.eligible t) := totalWeight_pos _ hne hposall
    have hlt : (rs.getD 0 0) % totalWeight (p.eligible t) <
        totalWeight (p.eligible t) := Nat.mod_lt _ htot
    obtain ⟨c, hmem, hc⟩ := pickByWeight_mem _ _ hlt
    exact ⟨c, hnm ▸ hmem, hc⟩

theorem roll_preserves_inv (p : PoolState) (t n : Nat) (rs : List Nat)
    (hinv : PoolInv p) : PoolInv (p.roll t n rs).2 := by
  rw [roll_eq]
  by_cases he : (p.eligible t).isEmpty
  · rw [if_pos he]
    exact hinv
  · rw [if_neg he]
    rcases hch : p.chosen_names t n rs with _ | ⟨nm, rest⟩
    · exact hinv
    · obtain ⟨c0, hmem, hc0⟩ := chosen_names_head p t n rs nm rest hch
      have hcnt : (nm, c0) ∈ p.available_counts := (mem_eligible p t _ hmem).1
      have hget : dget p.available_counts nm = some c0 :=
        mem_dget_of_nodup _ _ _ hinv.1 hcnt
      obtain ⟨bp, hbp, _hc0lo, hc0hi⟩ := hinv.2 nm c0 hget
      rw [rollLoop_cons_state p nm rest bp c0 hget hbp]
      constructor
      · show ((dset p.available_counts nm (c0 - 1)).map Prod.fst).Nodup
        rw [dset_keys]
        exact hinv.1
      · intro name c hc
        replace hc : dget (dset p.available_counts nm (c0 - 1)) name = some c := hc
        by_cases hn : name = nm
        · subst hn
          rw [dget_dset_self _ _ _ _ hget] at hc
          obtain rfl : c0 - 1 = c := Option.some.inj hc
          exact ⟨bp, hbp, by omega, by omega⟩
        · rw [dget_dset_ne _ _ _ _ hn] at hc
          exact hinv.2 name c hc

theorem return_minion_none (p : PoolState) (name : String)
    (h : dget p.available_counts name = none) : p.return_minion name = p := by
  simp only [PoolState.return_minion, h]

theorem return_minion_no_bp (p : PoolState) (name : String) (c : Int)
    (h1 : dget p.available_counts name = some c)
    (h2 : dget p.minion_blueprints name = none) :
    p.return_minion name = p := by
  simp only [PoolState.return_minion, h1, h2]

theorem return_minion_some (p : PoolState) (name : String) (c : Int)
    (bp : MinionData)
    (h1 : dget p.available_counts name = some c)
    (h2 : dget p.minion_blueprints name = some bp) :
    p.return_minion name =
      if c < (copiesPerTier bp.tier : Int) then
        { p with available_counts := dset p.available_counts name (c + 1) }
      else p := by
  simp only [PoolState.return_minion, h1, h2]

theorem return_preserves_inv (p : PoolState) (name : String)
    (hinv : PoolInv p) : PoolInv (p.return_minion name) := by
  rcases hc : dget p.available_counts name with _ | c
  · rw [return_minion_none p name hc]
    exact hinv
  · rcases hbp : dget p.minion_blueprints name with _ | bp
    · rw [return_minion_no_bp p name c hc hbp]
      exact hinv
    · rw [return_minion_some p name c bp hc hbp]
      obtain ⟨bp', hbp', hlo, hhi⟩ := hinv.2 name c hc
      have hbpeq : bp = bp' := Option.some.inj (hbp.symm.trans hbp')
      subst hbpeq
      by_cases hlt : c < (copiesPerTier bp.tier : Int)
      · rw [if_pos hlt]
        constructor
        · show ((dset p.available_counts name (c + 1)).map Prod.fst).Nodup
          rw [dset_keys]
          exact hinv.1
        · intro name' c' hc'
          replace hc' : dget (dset p.available_counts name (c + 1)) name' = some c' := hc'
          by_cases hn : name' = name
          · subst hn
            rw [dget_dset_self _ _ _ _ hc] at hc'
            obtain rfl : c + 1 = c' := Option.some.inj hc'
            exact ⟨bp, hbp, by omega, by omega⟩
          · rw [dget_dset_ne _ _ _ _ hn] at hc'
            exact hinv.2 name' c' hc'
      · rw [if_neg hlt]
        exact hinv

theorem pool_init_fst (active : List Tribe) :
    (Pool.init active).1 =
      ⟨(ALL_MINIONS_DATA.filter
          (fun md => tribeEligible md (setAdd active Tribe.NEUTRAL))).map
            (fun md => (md.name, md)),
        (ALL_MINIONS_DATA.filter
          (fun md => tribeEligible md (setAdd active Tribe.NEUTRAL))).map
            (fun md => (md.name, (copiesPerTier md.tier : Int)))⟩ := rfl

theorem init_inv (active : List Tribe) : PoolInv (Pool.init active).1 := by
  rw [pool_init_fst]
  have hnames : ((ALL_MINIONS_DATA.filter
      (fun md => tribeEligible md (setAdd active Tribe.NEUTRAL))).map
        MinionData.name).Nodup :=
    ((List.filter_sublist _).map MinionData.name).nodup all_minion_names_nodup
  constructor
  · show (((ALL_MINIONS_DATA.filter
        (fun md => tribeEligible md (setAdd active Tribe.NEUTRAL))).map
          (fun md => (md.name, (copiesPerTier md.tier : Int)))).map Prod.fst).Nodup
    rw [List.map_map]
    exact hnames
  · intro name c hc
    have hmem := dget_mem _ _ _ hc
    obtain ⟨md, hmd, hpair⟩ := List.mem_map.mp hmem
    have hn : md.name = name := congrArg Prod.fst hpair
    have hcv : (copiesPerTier md.tier : Int) = c := congrArg Prod.snd hpair
    subst hn
    subst hcv
    refine ⟨md, ?_, Int.natCast_nonneg _, le_refl _⟩
    apply mem_dget_of_nodup
    · show (((ALL_MINIONS_DATA.filter
          (fun md => tribeEligible md (setAdd active Tribe.NEUTRAL))).map
            (fun md => (md.name, md))).map Prod.fst).Nodup
      rw [List.map_map]
      exact hnames
    · exact List.mem_map.mpr ⟨md, hmd, rfl⟩

theorem return_at_cap_noop (p : PoolState) (name : String) (bp : MinionData)
    (hbp : dget p.minion_blueprints name = some bp)
    (hc : dget p.available_counts name = some ((copiesPerTier bp.tier : Int))) :
    p.return_minion name = p := by
  rw [return_minion_some p name _ bp hc hbp]
  simp

/-- C3: confirmed. Starting from any freshly initialized pool, every
roll/return sequence keeps `0 ≤ remaining[name] ≤ initial_copies[name]`
(a roll decrements only a positive eligible count before its construction
loop raises; a return increments below the cap), and returning a name whose
count already equals its tier's initial allotment leaves the pool
unchanged. -/
theorem pool_counts_invariant (active : List Tribe) (ops : List PoolOp) :
    PoolInv (PoolState.applyOps (Pool.init active).1 ops) ∧
    (∀ name bp,
      dget (PoolState.applyOps (Pool.init active).1 ops).minion_blueprints name = some bp →
      dget (PoolState.applyOps (Pool.init active).1 ops).available_counts name =
        some ((copiesPerTier bp.tier : Int)) →
      (PoolState.applyOps (Pool.init active).1 ops).return_minion name =
        PoolState.applyOps (Pool.init active).1 ops) := by
  constructor
  · have hstep : ∀ (ops : List PoolOp) (p : PoolState), PoolInv p →
        PoolInv (ops.foldl PoolState.applyOp p) := by
      intro ops
      induction ops with
      | nil => exact fun p h => h
      | cons op rest ih =>
          intro p hp
          rw [List.foldl_cons]
          apply ih
          cases op with
          | roll t n rs => exact roll_preserves_inv p t n rs hp
          | ret name => exact return_preserves_inv p name hp
    exact hstep ops _ (init_inv active)
  · intro name bp hbp hc
    exact return_at_cap_noop _ name bp hbp hc

/-- Witness for C3: the fresh `{UNDEAD}` pool satisfies the invariant, and
returning the untouched name Micro Mummy (count 15 = cap 15) is a no-op. -/
theorem pool_counts_invariant_witness :
    PoolInv (PoolState.applyOps (Pool.init [Tribe.UNDEAD]).1 []) ∧
    (PoolState.applyOps (Pool.init [Tribe.UNDEAD]).1 []).return_minion ("Micro Mummy") =
      PoolState.applyOps (Pool.init [Tribe.UNDEAD]).1 [] :=
  ⟨(pool_counts_invariant [Tribe.UNDEAD] []).1,
   (pool_counts_invariant [Tribe.UNDEAD] []).2 ("Micro Mummy")
     ⟨"Micro Mummy", 1, 1, 2, [Tribe.MECH, Tribe.UNDEAD], [], []⟩
     (by decide) (by decide)⟩

/-! ## Claim C9: player elimination returns the board to the pool -/

/-- The state touched by `Player.take_damage` / `Player.game_over`
(`player.py`): health, the alive flag, the owned board's minion list and
the shared pool (reached through `self.tavern.pool`). -/
structure PlayerPoolState where
  health : Int
  alive : Bool
  board_minions : List Minion
  pool : PoolState

/-- `Player.game_over`: return every board minion's name to the pool, then
set `alive = False`; the board's minion list itself is not touched. -/
def PlayerPoolState.game_over (s : PlayerPoolState) : PlayerPoolState :=
  { s with
    pool := s.board_minions.foldl (fun pl m => pl.return_minion m.name) s.pool,
    alive := false }

/-- `Player.take_damage(dmg)`: lose health; at 0 or below, `game_over`. -/
def PlayerPoolState.take_damage (s : PlayerPoolState) (dmg : Int) :
    PlayerPoolState :=
  let s1 : PlayerPoolState := { s with health := s.health - dmg }
  if s1.health ≤ 0 then s1.game_over else s1

theorem return_minion_blueprints (p : PoolState) (nm : String) :
    (p.return_minion nm).minion_blueprints = p.minion_blueprints := by
  rcases h1 : dget p.available_counts nm with _ | c
  · rw [return_minion_none p nm h1]
  · rcases h2 : dget p.minion_blueprints nm with _ | bp
    · rw [return_minion_no_bp p nm c h1 h2]
    · rw [return_minion_some p nm c bp h1 h2]
      by_cases hlt : c < (copiesPerTier bp.tier : Int)
      · rw [if_pos hlt]
      · rw [if_neg hlt]

theorem return_minion_other (p : PoolState) (nm name : String)
    (hne : name ≠ nm) :
    dget (p.return_minion nm).available_counts name =
      dget p.available_counts name := by
  rcases h1 : dget p.available_counts nm with _ | c
  · rw [return_minion_none p nm h1]
  · rcases h2 : dget p.minion_blueprints nm with _ | bp
    · rw [return_minion_no_bp p nm c h1 h2]
    · rw [return_minion_some p nm c bp h1 h2]
      by_cases hlt : c < (copiesPerTier bp.tier : Int)
      · rw [if_pos hlt]
        exact dget_dset_ne _ _ _ _ hne
      · rw [if_neg hlt]

theorem return_minion_absent (p : PoolState) (nm name : String)
    (h : dget p.available_counts name = none) :
    dget (p.return_minion nm).available_counts name = none := by
  rcases h1 : dget p.available_counts nm with _ | c
  · rw [return_minion_none p nm h1]
    exact h
  · rcases h2 : dget p.minion_blueprints nm with _ | bp
    · rw [return_minion_no_bp p nm c h1 h2]
      exact h
    · rw [return_minion_some p nm c bp h1 h2]
      by_cases hlt : c < (copiesPerTier bp.tier : Int)
      · rw [if_pos hlt]
        exact dget_dset_none _ _ _ _ h
      · rw [if_neg hlt]
        exact h

theorem return_fold_count (name : String) (bp : MinionData) :
    ∀ (ms : List Minion) (pl : PoolState) (c : Int),
    dget pl.minion_blueprints name = some bp →
    dget pl.available_counts name = some c →
    c ≤ (copiesPerTier bp.tier : Int) →
    dget ((ms.foldl (fun pl m => pl.return_minion m.name) pl)).available_counts
        name =
      some (min ((copiesPerTier bp.tier : Int))
        (c + ((ms.map Minion.name).count name : Int))) := by
  intro ms
  induction ms with
  | nil =>
      intro pl c hbp hc hle
      simp only [List.foldl_nil, List.map_nil, List.count_nil, Int.ofNat_zero,
        add_zero]
      rw [min_eq_right hle]
      exact hc
  | cons m ms ih =>
      intro pl c hbp hc hle
      rw [List.foldl_cons]
      by_cases hmn : m.name = name
      · rw [hmn, return_minion_some pl name c bp hc hbp]
        by_cases hlt : c < (copiesPerTier bp.tier : Int)
        · rw [if_pos hlt]
          have hbp' : dget (dset pl.available_counts name (c + 1)) name = some (c + 1) :=
            dget_dset_self _ _ _ _ hc
          have := ih { pl with available_counts := dset pl.available_counts name (c + 1) }
            (c + 1) hbp hbp' (by omega)
          rw [this]
          have harith : c + 1 + ((ms.map Minion.name).count name : Int) =
              c + (((m :: ms).map Minion.name).count name : Int) := by
            rw [List.map_cons, hmn, List.count_cons_self]
            push_cast
            ring
          rw [harith]
        · rw [if_neg hlt]
          have hceq : c = (copiesPerTier bp.tier : Int) := le_antisymm hle (by omega)
          have := ih pl c hbp hc hle
          rw [this]
          have hk : (0 : Int) ≤ ((ms.map Minion.name).count name : Int) :=
            Int.natCast_nonneg _
          have hk' : (0 : Int) ≤ (((m :: ms).map Minion.name).count name : Int) :=
            Int.natCast_nonneg _
          rw [min_eq_left (by omega), min_eq_left (by omega)]
      · have hbp2 : dget (pl.return_minion m.name).minion_blueprints name = some bp := by
          rw [return_minion_blueprints]
          exact hbp
        have hc2 : dget (pl.return_minion m.name).available_counts name = some c := by
          rw [return_minion_other pl m.name name (fun he => hmn he.symm)]
          exact hc
        have := ih (pl.return_minion m.name) c hbp2 hc2 hle
        rw [this]
        have hcnt : ((m :: ms).map Minion.name).count name =
            (ms.map Minion.name).count name := by
          rw [List.map_cons]
          exact List.count_cons_of_ne (fun he => hmn he.symm) _
        rw [hcnt]

theorem return_fold_absent (name : String) :
    ∀ (ms : List Minion) (pl : PoolState),
    dget pl.available_counts name = none →
    dget ((ms.foldl (fun pl m => pl.return_minion m.name) pl)).available_counts
        name = none := by
  intro ms
  induction ms with
  | nil => exact fun pl h => h
  | cons m ms ih =>
      intro pl h
      rw [List.foldl_cons]
      exact ih _ (return_minion_absent pl m.name name h)

theorem take_damage_dead (s : PlayerPoolState) (dmg : Int)
    (h : s.health - dmg ≤ 0) :
    s.take_damage dmg =
      { health := s.health - dmg, alive := false,
        board_minions := s.board_minions,
        pool := s.board_minions.foldl (fun pl m => pl.return_minion m.name)
          s.pool } := by
  simp only [PlayerPoolState.take_damage, PlayerPoolState.game_over]
  rw [if_pos h]

/-- C9: confirmed. When `Player.take_damage` brings health to 0 or below,
`game_over` runs: the alive flag drops to `False`, every board minion's
name is returned to the shared pool (each return increments the blueprint's
remaining count, clamped at the tier's initial allotment — so the final
count is `min(cap, count + occurrences)`; names unknown to the pool stay
unknown), and the minions themselves stay on the board's minion list. -/
theorem take_damage_eliminates_and_returns_board (s : PlayerPoolState)
    (dmg : Int) (h : s.health - dmg ≤ 0) :
    (s.take_damage dmg).alive = false ∧
    (s.take_damage dmg).board_minions = s.board_minions ∧
    (∀ name bp c, dget s.pool.minion_blueprints name = some bp →
      dget s.pool.available_counts name = some c →
      c ≤ (copiesPerTier bp.tier : Int) →
      dget (s.take_damage dmg).pool.available_counts name =
        some (min ((copiesPerTier bp.tier : Int))
          (c + ((s.board_minions.map Minion.name).count name : Int)))) ∧
    (∀ name, dget s.pool.available_counts name = none →
      dget (s.take_damage dmg).pool.available_counts name = none) := by
  rw [take_damage_dead s dmg h]
  refine ⟨rfl, rfl, ?_, ?_⟩
  · intro name bp c hbp hc hle
    exact return_fold_count name bp s.board_minions s.pool c hbp hc hle
  · intro name hn
    exact return_fold_absent name s.board_minions s.pool hn

/-- Witness for C9: a player at 5 health takes 10 damage with two
Micro Mummy minions on board and the pool at 13/15 copies; afterwards the
player is dead, the board list is intact and the count is back at the
cap 15. -/
theorem take_damage_eliminates_witness :
    ((5 : Int) - 10 ≤ 0) ∧
    ((PlayerPoolState.mk 5 true
        [⟨"Micro Mummy", 1, 2, 1, 0, [Tribe.MECH, Tribe.UNDEAD], [], []⟩,
         ⟨"Micro Mummy", 1, 2, 1, 0, [Tribe.MECH, Tribe.UNDEAD], [], []⟩]
        ⟨[("Micro Mummy", ⟨"Micro Mummy", 1, 1, 2, [Tribe.MECH, Tribe.UNDEAD], [], []⟩)],
         [("Micro Mummy", 13)]⟩).take_damage 10).alive = false ∧
    dget (((PlayerPoolState.mk 5 true
        [⟨"Micro Mummy", 1, 2, 1, 0, [Tribe.MECH, Tribe.UNDEAD], [], []⟩,
         ⟨"Micro Mummy", 1, 2, 1, 0, [Tribe.MECH, Tribe.UNDEAD], [], []⟩]
        ⟨[("Micro Mummy", ⟨"Micro Mummy", 1, 1, 2, [Tribe.MECH, Tribe.UNDEAD], [], []⟩)],
         [("Micro Mummy", 13)]⟩).take_damage 10)).pool.available_counts
      ("Micro Mummy") = some 15 := by
  refine ⟨by decide, ?_, ?_⟩
  · exact (take_damage_eliminates_and_returns_board _ 10 (by decide)).1
  · have h3 := (take_damage_eliminates_and_returns_board
      (PlayerPoolState.mk 5 true
        [⟨"Micro Mummy", 1, 2, 1, 0, [Tribe.MECH, Tribe.UNDEAD], [], []⟩,
         ⟨"Micro Mummy", 1, 2, 1, 0, [Tribe.MECH, Tribe.UNDEAD], [], []⟩]
        ⟨[("Micro Mummy", ⟨"Micro Mummy", 1, 1, 2, [Tribe.MECH, Tribe.UNDEAD], [], []⟩)],
         [("Micro Mummy", 13)]⟩) 10 (by decide)).2.2.1 ("Micro Mummy")
      ⟨"Micro Mummy", 1, 1, 2, [Tribe.MECH, Tribe.UNDEAD], [], []⟩ 13
      (by decide) (by decide) (by decide)
    simpa using h3

/-! ## Claim C5: `EventBus.emit` snapshot dispatch

`events.py`, class `EventBus`. Handlers are arbitrary Python callables; the
claim concerns what they can do to the bus (subscribe/unsubscribe during
dispatch) and whether they raise, so the embedding quantifies over a family
of handlers that perform any sequence of subscription changes, optionally
raise at the end, and are observed through an invocation trace. -/

/-- The event kinds (`events.py`, enum `EventType`). -/
inductive EventType
  | COMBAT_START | MINION_ATTACKS | MINION_TAKES_DAMAGE | MINION_DIES
  | COMBAT_END | MINION_PLAYED | MINION_SOLD | TURN_START | TURN_END
  | MINION_SUMMONED | MINION_BUFFED
deriving DecidableEq

/-- The `_listeners` dict of an `EventBus`: event kind to the ordered
list of subscribed handlers (handlers named by `Nat` ids). -/
structure BusState where
  listeners : List (EventType × List Nat)
deriving DecidableEq

/-- `EventBus.subscribe(event_type, callback)`: create the entry if the
kind is new, then append the callback. -/
def BusState.subscribe (b : BusState) (k : EventType) (h : Nat) : BusState :=
  match dget b.listeners k with
  | none => ⟨b.listeners ++ [(k, [h])]⟩
  | some hs => ⟨dset b.listeners k (hs ++ [h])⟩

/-- Remove the first occurrence (Python `list.remove`). -/
def removeFirst : List Nat → Nat → List Nat
  | [], _ => []
  | x :: xs, y => if x = y then xs else x :: removeFirst xs y

/-- `EventBus.unsubscribe(event_type, callback)`: remove the first
occurrence when the kind has an entry containing the callback. -/
def BusState.unsubscribe (b : BusState) (k : EventType) (h : Nat) : BusState :=
  match dget b.listeners k with
  | none => b
  | some hs => if h ∈ hs then ⟨dset b.listeners k (removeFirst hs h)⟩ else b

/-- One bus mutation a handler may perform while it runs. -/
inductive BusAct
  | sub (k : EventType) (h : Nat)
  | unsub (k : EventType) (h : Nat)

/-- What one handler does when invoked: its bus mutations in order, and
whether it then raises. -/
structure HandlerScript where
  acts : List BusAct
  raises : Bool

/-- Dispatch state: the bus and the trace of handler invocations so far. -/
structure DispatchState where
  bus : BusState
  trace : List Nat

/-- Run one handler: record the invocation, apply its bus mutations, and
report whether it raised. -/
def runHandler (env : Nat → HandlerScript) (st : DispatchState) (h : Nat) :
    DispatchState × Bool :=
  let b1 := (env h).acts.foldl
    (fun acc a => match a with
      | .sub k i => acc.subscribe k i
      | .unsub k i => acc.unsubscribe k i) st.bus
  (⟨b1, st.trace ++ [h]⟩, (env h).raises)

/-- `EventBus.emit(event)`: when the kind has an entry, iterate over a
`.copy()` of its handler list taken at emit time; each callback runs under
`try/except`, so a raise is logged and dispatch continues with the next
handler of the same snapshot. -/
def BusState.emit (env : Nat → HandlerScript) (st : DispatchState)
    (k : EventType) : DispatchState :=
  match dget st.bus.listeners k with
  | none => st
  | some snapshot =>
      snapshot.foldl (fun acc h => (runHandler env acc h).1) st

theorem emit_foldl_trace (env : Nat → HandlerScript) :
    ∀ (hs : List Nat) (st : DispatchState),
    (hs.foldl (fun acc h => (runHandler env acc h).1) st).trace =
      st.trace ++ hs := by
  intro hs
  induction hs with
  | nil => intro st; simp
  | cons h hs ih =>
      intro st
      rw [List.foldl_cons, ih]
      show (st.trace ++ [h]) ++ hs = st.trace ++ h :: hs
      simp

/-- C5: confirmed. Whatever every handler does — subscribing or
unsubscribing any handler to any kind mid-dispatch, raising or not — one
`emit` invokes exactly the handlers subscribed to the event's kind at emit
time, in subscription order: the invocation trace grows by precisely the
snapshot of the kind's listener list, so mid-dispatch subscription changes
do not alter the current pass and a raising handler does not stop the
remaining handlers of the pass from running. -/
theorem emit_dispatches_snapshot_in_order (env : Nat → HandlerScript)
    (st : DispatchState) (k : EventType) :
    (BusState.emit env st k).trace =
      st.trace ++ (dget st.bus.listeners k).getD [] := by
  unfold BusState.emit
  rcases hk : dget st.bus.listeners k with _ | snapshot
  · simp
  · rw [emit_foldl_trace]
    rfl

/-! ## The live game object graph

Shared by claims C4, C6, C7 and C8: minions, players, boards and event
buses as a heap of id-addressed objects (`minion.py`, `board.py`,
`player.py`, `events.py`). Python object identity (`is`) becomes id
equality. The only effect class in the repository is
`EternalKnightEffect`, which subscribes solely to `MINION_DIES`, and
`Board.remove_dead_minions` is the only emitter reached from these claims,
so a bus is recorded as its ordered `MINION_DIES` handler list (handlers
are the ids of the minions whose bound `_on_minion_death` is subscribed). -/

/-- Association-list store-or-append, modelling Python `dict[k] = v` when
the key may be new (new keys append in insertion order). -/
def dput {κ α : Type} [DecidableEq κ] (l : List (κ × α)) (k : κ) (v : α) :
    List (κ × α) :=
  match dget l k with
  | none => l ++ [(k, v)]
  | some _ => dset l k v

/-- A live `Minion` object: stats and identity plus the state of its
`EternalKnightEffect` instance (`ekBus` is the effect's `event_bus`
reference, `none` when detached or when the minion has no such effect). -/
structure MinionObj where
  name : String
  attack : Int
  health : Int
  tier : Nat
  owner : Nat
  tribes : List Tribe
  effects : List String
  ekBus : Option Nat
deriving DecidableEq

instance : Inhabited MinionObj := ⟨⟨"", 0, 0, 0, 0, [], [], none⟩⟩

/-- A `Player` as far as these claims read it: display name, the persistent
buff counters, and the owned `EventBus`. -/
structure PlayerObj where
  name : String
  permanent_buffs : List (String × Int)
  event_bus : Nat
deriving DecidableEq

instance : Inhabited PlayerObj := ⟨⟨"", [], 0⟩⟩

/-- A `Board`: owning player, capacity (7 at construction) and the ordered
minion list. -/
structure BoardObj where
  owner : Nat
  capacity : Nat
  minions : List Nat
deriving DecidableEq

instance : Inhabited BoardObj := ⟨⟨0, 7, []⟩⟩

/-- The heap of live game objects. `fresh` is the next unused object id
(Python allocates fresh objects on `deepcopy`). -/
structure GState where
  minions : List (Nat × MinionObj)
  players : List (Nat × PlayerObj)
  boards : List (Nat × BoardObj)
  buses : List (Nat × List Nat)
  fresh : Nat
deriving DecidableEq

def GState.getM (st : GState) (i : Nat) : MinionObj :=
  (dget st.minions i).getD default

def GState.setM (st : GState) (i : Nat) (m : MinionObj) : GState :=
  { st with minions := dset st.minions i m }

def GState.getP (st : GState) (i : Nat) : PlayerObj :=
  (dget st.players i).getD default

def GState.setP (st : GState) (i : Nat) (p : PlayerObj) : GState :=
  { st with players := dset st.players i p }

def GState.getB (st : GState) (i : Nat) : BoardObj :=
  (dget st.boards i).getD default

/-- `Minion.buff(a, h)`. -/
def GState.buffM (st : GState) (i : Nat) (a h : Int) : GState :=
  let m := st.getM i
  st.setM i { m with attack := m.attack + a, health := m.health + h }

/-- `Minion.take_damage(damage)`. -/
def GState.damageM (st : GState) (i : Nat) (dmg : Int) : GState :=
  let m := st.getM i
  st.setM i { m with health := m.health - dmg }

/-- `Minion.is_alive`. -/
def GState.aliveM (st : GState) (i : Nat) : Bool :=
  decide (0 < (st.getM i).health)

/-- `EventBus.subscribe(MINION_DIES, handler-of-minion-h)` on bus `b`. -/
def GState.busSub (st : GState) (b h : Nat) : GState :=
  match dget st.buses b with
  | none => { st with buses := st.buses ++ [(b, [h])] }
  | some hs => { st with buses := dset st.buses b (hs ++ [h]) }

/-- `EventBus.unsubscribe(MINION_DIES, handler-of-minion-h)` on bus `b`. -/
def GState.busUnsub (st : GState) (b h : Nat) : GState :=
  match dget st.buses b with
  | none => st
  | some hs =>
      if h ∈ hs then { st with buses := dset st.buses b (removeFirst hs h) }
      else st

/-- `EternalKnightEffect._on_minion_death(event)` for the effect bound to
minion `selfId`, on an event with `source = srcId`, `player = playerId`.
The Boolean is the event's `_ek_death_counted` attribute, set by the first
handler that counts the death. -/
def GState.ekOnMinionDeath (st : GState) (counted : Bool)
    (selfId srcId playerId : Nat) : GState × Bool :=
  let selfM := st.getM selfId
  let srcM := st.getM srcId
  if playerId ≠ selfM.owner ∨ ("eternal_knight") ∉ srcM.effects ∨ srcId = selfId then
    (st, counted)
  else
    let st1 :=
      if counted then st
      else
        let p := st.getP selfM.owner
        let cur := (dget p.permanent_buffs ("eternal_knight_deaths")).getD 0
        st.setP selfM.owner
          { p with permanent_buffs := (dput p.permanent_buffs
              ("eternal_knight_deaths") (cur + 1)) }
    (st1.buffM selfId 1 1, true)

/-- `EventBus.emit` of a `MINION_DIES` event on bus `busId`: iterate a
snapshot copy of the handler list; every subscribed handler is an
`_on_minion_death` of an `EternalKnightEffect` (the repository's only
effect), and none of them raises. -/
def GState.emitMinionDies (st : GState) (busId srcId playerId : Nat) :
    GState :=
  let snapshot := (dget st.buses busId).getD []
  (snapshot.foldl
    (fun acc h => GState.ekOnMinionDeath acc.1 acc.2 h srcId playerId)
    (st, false)).1

/-- `EternalKnightEffect.attach(event_bus)`: store the bus, subscribe to
`MINION_DIES`, then apply the catch-up bonus from the owner's persistent
`eternal_knight_deaths` counter. -/
def GState.ekAttach (st : GState) (i busId : Nat) : GState :=
  let m := st.getM i
  let st1 := st.setM i { m with ekBus := some busId }
  let st2 := st1.busSub busId i
  let m2 := st2.getM i
  let bonus :=
    (dget (st2.getP m2.owner).permanent_buffs ("eternal_knight_deaths")).getD 0
  if 0 < bonus then st2.buffM i bonus bonus else st2

/-- `Minion.attach_to_game(event_bus)`: attach each effect instance; the
minion has an `EternalKnightEffect` iff `eternal_knight` is listed. -/
def GState.minionAttach (st : GState) (i busId : Nat) : GState :=
  if ("eternal_knight") ∈ (st.getM i).effects then st.ekAttach i busId else st

/-- `Minion.detach_from_game()`: each effect unsubscribes from its recorded
bus and clears the reference (`Effect.detach` is a no-op when already
detached). -/
def GState.minionDetach (st : GState) (i : Nat) : GState :=
  if ("eternal_knight") ∈ (st.getM i).effects then
    match (st.getM i).ekBus with
    | none => st
    | some b =>
        let st1 := st.busUnsub b i
        let m := st1.getM i
        st1.setM i { m with ekBus := none }
  else st

/-- `Board.add_minion(minion)`: raise `ValueError` when full (before any
mutation), otherwise attach the minion's effects to the owner's bus and
append it. -/
def GState.boardAddMinion (st : GState) (bId mId : Nat) :
    Except String Unit × GState :=
  match dget st.boards bId with
  | none => (.error ("KeyError"), st)
  | some b =>
      if b.capacity ≤ b.minions.length then (.error ("Board is full"), st)
      else
        let busId := (st.getP b.owner).event_bus
        let st1 := st.minionAttach mId busId
        (.ok (),
         { st1 with boards := (dset st1.boards bId
             { b with minions := b.minions ++ [mId] }) })

/-- `Board.remove_dead_minions()`: collect the dead once, then per dead
minion emit `MINION_DIES(source=minion, player=owner)` on the owner's bus
(a `Player` always holds a live `EventBus`, so the `if self.owner.event_bus`
guard passes) and detach it; finally drop everyone not alive after the
events. -/
def GState.boardRemoveDead (st : GState) (bId : Nat) : GState :=
  match dget st.boards bId with
  | none => st
  | some b =>
      let dead := b.minions.filter (fun i => !(st.aliveM i))
      if dead.isEmpty then st
      else
        let st1 := dead.foldl (fun acc i =>
          let busId := (GState.getP acc b.owner).event_bus
          let acc1 := GState.emitMinionDies acc busId i b.owner
          GState.minionDetach acc1 i) st
        match dget st1.boards bId with
        | none => st1
        | some b1 =>
            { st1 with boards := (dset st1.boards bId
                { b1 with minions := b1.minions.filter (fun i => st1.aliveM i) }) }

/-- `Board.clone_for_combat()`: a fresh `Board` whose `owner` attribute is
the ORIGINAL player object, carrying `deepcopy`s of the minions.
`deepcopy(m)` duplicates the whole object graph reachable from `m` (its
owner `Player`, that player's bus, ...); those copies are fresh objects
never reached by live dispatch, so each cloned minion gets a fresh id, a
fresh phantom owner id that no player record uses, and its copied effect
holds the copied (non-live) bus, recorded as no live-bus attachment. -/
def GState.cloneForCombat (st : GState) (bId : Nat) : GState × Nat :=
  match dget st.boards bId with
  | none => (st, 0)
  | some b =>
      let n := b.minions.length
      let cloneIds := (List.range n).map (fun j => st.fresh + 2 * j)
      let newMinions := (List.range n).map (fun j =>
        let orig := st.getM (b.minions.getD j 0)
        (st.fresh + 2 * j,
         { orig with owner := st.fresh + 2 * j + 1, ekBus := none }))
      let newBoardId := st.fresh + 2 * n
      ({ st with minions := st.minions ++ newMinions,
                 boards := st.boards ++ [(newBoardId, ⟨b.owner, b.capacity, cloneIds⟩)],
                 fresh := st.fresh + 2 * n + 1 },
       newBoardId)

/-! ## `combat.py`: the `Combat` class -/

def GState.minionCountB (st : GState) (bId : Nat) : Nat :=
  (st.getB bId).minions.length

/-- `Board.alive_minions`. -/
def GState.aliveMinionsB (st : GState) (bId : Nat) : List Nat :=
  (st.getB bId).minions.filter (fun i => st.aliveM i)

/-- `Combat._determineOrder`: more minions attack first; on a tie a coin
flip (the explicit `coin` randomness) decides. `true` = board1 first. -/
def determineOrder (st : GState) (b1 b2 : Nat) (coin : Bool) : Bool :=
  if st.minionCountB b2 < st.minionCountB b1 then true
  else if st.minionCountB b1 < st.minionCountB b2 then false
  else coin

/-- `random.choice(lst)` driven by the random stream: consume one value and
index uniformly into the list (callers never pass an empty list). -/
def randChoice (l : List Nat) (rs : List Nat) : Nat × List Nat :=
  (l.getD ((rs.headD 0) % l.length) 0, rs.tail)

/-- The first (deque-based) loop of `Combat.resolve_combat`, with an
explicit fuel bound standing for the unbounded `while` (every theorem
below runs out of attackers long before the fuel). State passes through:
the heap, the two attacker queues, and the remaining random stream. -/
def combatLoop1 (bd1 bd2 : Nat) :
    Nat → GState → List Nat → List Nat → Bool → List Nat →
      GState × List Nat × List Nat × List Nat
  | 0, st, q1, q2, _, rs => (st, q1, q2, rs)
  | fuel + 1, st, q1, q2, firstIsQ1, rs =>
      if q1.isEmpty ∨ q2.isEmpty then (st, q1, q2, rs)
      else if firstIsQ1 then
        let attacker := q1.headD 0
        let q1' := q1.tail
        if (st.aliveMinionsB bd2).isEmpty then (st, q1', q2, rs)
        else
          let tr := randChoice (st.getB bd2).minions rs
          let st1 := st.damageM tr.1 (st.getM attacker).attack
          let st2 := st1.damageM attacker (st1.getM tr.1).attack
          let q1x := q1' ++ (if st2.aliveM attacker then [attacker] else [])
          let st3 := st2.boardRemoveDead bd1
          let st4 := st3.boardRemoveDead bd2
          combatLoop1 bd1 bd2 fuel st4
            (q1x.filter (fun i => st4.aliveM i))
            (q2.filter (fun i => st4.aliveM i)) false tr.2
      else
        let attacker := q2.headD 0
        let q2' := q2.tail
        if (st.aliveMinionsB bd1).isEmpty then (st, q1, q2', rs)
        else
          let tr := randChoice (st.getB bd1).minions rs
          let st1 := st.damageM tr.1 (st.getM attacker).attack
          let st2 := st1.damageM attacker (st1.getM tr.1).attack
          let q2x := q2' ++ (if st2.aliveM attacker then [attacker] else [])
          let st3 := st2.boardRemoveDead bd1
          let st4 := st3.boardRemoveDead bd2
          combatLoop1 bd1 bd2 fuel st4
            (q1.filter (fun i => st4.aliveM i))
            (q2x.filter (fun i => st4.aliveM i)) true tr.2

/-- The second (index-based) loop of `Combat.resolve_combat` (the source
runs both loops in sequence; this one starts at indices 0 with the same
initial attacker side). -/
def combatLoop2 (bd1 bd2 : Nat) :
    Nat → GState → Nat → Nat → Bool → List Nat → GState × List Nat
  | 0, st, _, _, _, rs => (st, rs)
  | fuel + 1, st, idx1, idx2, curIsB1, rs =>
      if st.minionCountB bd1 = 0 ∨ st.minionCountB bd2 = 0 then (st, rs)
      else if curIsB1 then
        let attacker := (st.getB bd1).minions.getD idx1 0
        let tr := randChoice (st.getB bd2).minions rs
        let st1 := st.damageM tr.1 (st.getM attacker).attack
        let st2 := st1.damageM attacker (st1.getM tr.1).attack
        let st3 := st2.boardRemoveDead bd1
        let st4 := st3.boardRemoveDead bd2
        if st4.minionCountB bd1 = 0 ∨ st4.minionCountB bd2 = 0 then (st4, tr.2)
        else
          combatLoop2 bd1 bd2 fuel st4
            (if st4.minionCountB bd1 ≤ idx1 + 1 then 0 else idx1 + 1)
            (if st4.minionCountB bd2 ≤ idx2 then 0 else idx2)
            false tr.2
      else
        let attacker := (st.getB bd2).minions.getD idx2 0
        let tr := randChoice (st.getB bd1).minions rs
        let st1 := st.damageM tr.1 (st.getM attacker).attack
        let st2 := st1.damageM attacker (st1.getM tr.1).attack
        let st3 := st2.boardRemoveDead bd1
        let st4 := st3.boardRemoveDead bd2
        if st4.minionCountB bd1 = 0 ∨ st4.minionCountB bd2 = 0 then (st4, tr.2)
        else
          combatLoop2 bd1 bd2 fuel st4
            (if st4.minionCountB bd1 ≤ idx1 then 0 else idx1)
            (if st4.minionCountB bd2 ≤ idx2 + 1 then 0 else idx2 + 1)
            true tr.2

/-- `Combat(board1, board2)` + `resolve_combat()`: order determination at
construction, then the deque loop, then the index loop, then the winner
string exactly as returned by the source. -/
def resolveCombat (st : GState) (bd1 bd2 : Nat) (coin : Bool)
    (rs : List Nat) (fuel : Nat) : String × GState :=
  let firstIsQ1 := determineOrder st bd1 bd2 coin
  let r1 := combatLoop1 bd1 bd2 fuel st (st.getB bd1).minions
    (st.getB bd2).minions firstIsQ1 rs
  let r2 := combatLoop2 bd1 bd2 fuel r1.1 0 0 firstIsQ1 r1.2.2.2
  let st2 := r2.1
  if 0 < st2.minionCountB bd1 then
    ((st2.getP (st2.getB bd1).owner).name ++ (" wins!"), st2)
  else if 0 < st2.minionCountB bd2 then
    ((st2.getP (st2.getB bd2).owner).name ++ (" wins!"), st2)
  else ("It\x27s a Tie!", st2)

/-! ## Claim C6: the Eternal Knight death chain (`main.py` scenario) -/

/-- An Eternal Knight as `main.py`'s `create_eternal_knight` builds one:
4/1, tier 3, undead, ability list `['eternal_knight']`, owned by player 0. -/
def ekKnight : MinionObj :=
  ⟨"Eternal Knight", 4, 1, 3, 0, [Tribe.UNDEAD], ["eternal_knight"], none⟩

/-- One player (id 0) with their event bus (id 0) and empty board (id 0);
four constructed knights (ids 1–4), none on the board yet. -/
def c6Start : GState :=
  ⟨[(1, ekKnight), (2, ekKnight), (3, ekKnight), (4, ekKnight)],
   [(0, ⟨"TestPlayer", [], 0⟩)],
   [(0, ⟨0, 7, []⟩)],
   [(0, [])],
   5⟩

/-- Knights U1, U2, U3 added to the live board (attaching their effects). -/
def c6AfterAdds : GState :=
  (((c6Start.boardAddMinion 0 1).2.boardAddMinion 0 2).2.boardAddMinion 0 3).2

/-- U1 takes 10 damage and the dead are removed. -/
def c6AfterFirstDeath : GState :=
  (c6AfterAdds.damageM 1 10).boardRemoveDead 0

/-- U2 then takes 10 damage and the dead are removed. -/
def c6AfterSecondDeath : GState :=
  (c6AfterFirstDeath.damageM 2 10).boardRemoveDead 0

/-- A fresh knight U4 added afterwards. -/
def c6AfterFourth : GState := (c6AfterSecondDeath.boardAddMinion 0 4).2

/-- C6: confirmed. After U1's death U2 and U3 are 5/2; after U2's death U3
is 6/3; U4 added afterwards is 6/3 immediately on attach, from the player's
persistent counter of 2 deaths, before any further event. -/
theorem eternal_knight_death_chain :
    ((c6AfterFirstDeath.getM 2).attack = 5 ∧ (c6AfterFirstDeath.getM 2).health = 2 ∧
     (c6AfterFirstDeath.getM 3).attack = 5 ∧ (c6AfterFirstDeath.getM 3).health = 2) ∧
    ((c6AfterSecondDeath.getM 3).attack = 6 ∧ (c6AfterSecondDeath.getM 3).health = 3) ∧
    ((c6AfterFourth.getM 4).attack = 6 ∧ (c6AfterFourth.getM 4).health = 3) ∧
    dget (c6AfterFourth.getP 0).permanent_buffs ("eternal_knight_deaths") = some 2 := by
  decide

/-! ## Claim C7: adding to a full board fails without mutation -/

/-- C7: confirmed. `Board.add_minion` on a board at capacity raises
`ValueError("Board is full")` before any mutation: the failure is reported
to the caller, the heap (board list, buses, minions) is untouched, and no
effect attachment happens for the rejected unit. -/
theorem board_add_minion_full_fails (st : GState) (bId mId : Nat)
    (b : BoardObj) (hb : dget st.boards bId = some b)
    (hcap : b.minions.length = b.capacity) :
    st.boardAddMinion bId mId = (.error ("Board is full"), st) := by
  simp only [GState.boardAddMinion, hb]
  rw [if_pos (le_of_eq hcap.symm)]

/-- A board already holding 7 minions. -/
def c7State : GState :=
  ⟨[], [(0, ⟨"P", [], 0⟩)], [(0, ⟨0, 7, [1, 2, 3, 4, 5, 6, 7]⟩)], [(0, [])], 9⟩

/-- Witness for C7: adding an eighth minion to the full board fails and
leaves the state unchanged. -/
theorem board_add_minion_full_fails_witness :
    dget c7State.boards 0 = some ⟨0, 7, [1, 2, 3, 4, 5, 6, 7]⟩ ∧
    (([1, 2, 3, 4, 5, 6, 7] : List Nat).length = 7) ∧
    c7State.boardAddMinion 0 8 = (.error ("Board is full"), c7State) :=
  ⟨by decide, by decide,
   board_add_minion_full_fails c7State 0 8 ⟨0, 7, [1, 2, 3, 4, 5, 6, 7]⟩
     (by decide) (by decide)⟩

/-! ## Claim C4: combat on clone boards fires live events -/

/-- Two players: P1 (id 0, bus 0, board 0) fields two live, attached
Eternal Knights (ids 2, 3); P2 (id 1, bus 1, board 1) fields one 10/10
demon (id 4). -/
def c4Start : GState :=
  ⟨[(2, ekKnight), (3, ekKnight),
    (4, ⟨"Big Demon", 10, 10, 5, 1, [Tribe.DEMON], [], none⟩)],
   [(0, ⟨"P1", [], 0⟩), (1, ⟨"P2", [], 1⟩)],
   [(0, ⟨0, 7, []⟩), (1, ⟨1, 7, []⟩)],
   [(0, []), (1, [])],
   5⟩

/-- The live boards populated through `Board.add_minion`. -/
def c4Live : GState :=
  (((c4Start.boardAddMinion 0 2).2.boardAddMinion 0 3).2.boardAddMinion 1 4).2

/-- `clone_for_combat()` of P1's board (combat board id 9, clones 5 and 7). -/
def c4Clone1 : GState × Nat := c4Live.cloneForCombat 0

/-- `clone_for_combat()` of P2's board (combat board id 12, clone 10). -/
def c4Clone2 : GState × Nat := c4Clone1.1.cloneForCombat 1

/-- `Combat(combat_board1, combat_board2).resolve_combat()` on the clones. -/
def c4Combat : String × GState :=
  resolveCombat c4Clone2.1 c4Clone1.2 c4Clone2.2 true [0, 0, 0, 0] 10

/-- C4: refuted. The clone board's `owner` is the live player, so
`remove_dead_minions` during combat emits `MINION_DIES` through the live
player's EventBus: resolving this combat on deep-copied boards drives P1's
persistent `eternal_knight_deaths` counter from absent to 2 and buffs P1's
LIVE knights from 4/1 to 6/3 (the live board's minion list itself stays
`[2, 3]`), contradicting the claim that no event fires and live state is
unchanged. -/
theorem combat_on_clones_mutates_live_state :
    (dget (c4Live.getP 0).permanent_buffs ("eternal_knight_deaths") = none ∧
     (c4Live.getM 2).attack = 4 ∧ (c4Live.getM 2).health = 1 ∧
     (c4Live.getM 3).attack = 4 ∧ (c4Live.getM 3).health = 1) ∧
    c4Combat.1 = ("P2 wins!") ∧
    (dget (c4Combat.2.getP 0).permanent_buffs ("eternal_knight_deaths") = some 2 ∧
     (c4Combat.2.getM 2).attack = 6 ∧ (c4Combat.2.getM 2).health = 3 ∧
     (c4Combat.2.getM 3).attack = 6 ∧ (c4Combat.2.getM 3).health = 3 ∧
     (c4Combat.2.getB 0).minions = [2, 3]) := by
  decide

/-! ## Claim C8: a mutual final exchange is a tie -/

/-- Two single-minion boards with identical attack/health values. -/
def c8State (atk hp : Int) : GState :=
  ⟨[(10, ⟨"A", atk, hp, 1, 0, [Tribe.BEAST], [], none⟩),
    (11, ⟨"B", atk, hp, 1, 1, [Tribe.BEAST], [], none⟩)],
   [(0, ⟨"P1", [], 0⟩), (1, ⟨"P2", [], 1⟩)],
   [(0, ⟨0, 7, [10]⟩), (1, ⟨1, 7, [11]⟩)],
   [(0, []), (1, [])],
   12⟩

theorem combatLoop1_q1_empty (bd1 bd2 f : Nat) (st : GState) (q2 : List Nat)
    (flag : Bool) (rs : List Nat) :
    combatLoop1 bd1 bd2 f st [] q2 flag rs = (st, [], q2, rs) := by
  cases f <;> simp [combatLoop1]

theorem combatLoop2_b1_empty (bd1 bd2 f : Nat) (st : GState) (i1 i2 : Nat)
    (cur : Bool) (rs : List Nat) (h : (st.getB bd1).minions = []) :
    combatLoop2 bd1 bd2 f st i1 i2 cur rs = (st, rs) := by
  cases f
  · rfl
  · simp only [combatLoop2]
    rw [if_pos (Or.inl (by simp [GState.minionCountB, h]))]

/-- C8: confirmed. Two single-unit boards whose units carry the same attack
and health, with attack ≥ health ≥ 1, kill each other in the first
exchange whichever side the coin flip favours and whatever the random
stream: `resolve_combat` returns the tie result, never a winner. -/
theorem mutual_kill_is_tie (atk hp : Int) (coin : Bool) (rs : List Nat)
    (fuel : Nat) (hhp : 0 < hp) (hle : hp ≤ atk) (hfuel : 0 < fuel) :
    (resolveCombat (c8State atk hp) 0 1 coin rs fuel).1 = ("It\x27s a Tie!") := by
  obtain ⟨f, rfl⟩ : ∃ f, fuel = f + 1 := ⟨fuel - 1, by omega⟩
  have hdead : ¬ (0 < hp - atk) := by omega
  cases coin <;>
    simp [resolveCombat, determineOrder, combatLoop1, combatLoop1_q1_empty,
      combatLoop2_b1_empty, c8State, GState.minionCountB, GState.getB,
      GState.getM, GState.getP, GState.setM, GState.aliveM,
      GState.aliveMinionsB, GState.damageM, GState.boardRemoveDead,
      GState.emitMinionDies, GState.minionDetach, GState.busUnsub,
      randChoice, dget, dset, Nat.mod_one, List.getD, hhp, hdead]

/-- Witness for C8 at 3/2 units, both coin outcomes, empty random stream,
fuel 2. -/
theorem mutual_kill_is_tie_witness :
    ((0 : Int) < 2 ∧ (2 : Int) ≤ 3 ∧ 0 < 2) ∧
    (resolveCombat (c8State 3 2) 0 1 true [] 2).1 = ("It\x27s a Tie!") ∧
    (resolveCombat (c8State 3 2) 0 1 false [] 2).1 = ("It\x27s a Tie!") :=
  ⟨⟨by decide, by decide, by decide⟩,
   mutual_kill_is_tie 3 2 true [] 2 (by decide) (by decide) (by decide),
   mutual_kill_is_tie 3 2 false [] 2 (by decide) (by decide) (by decide)⟩

/-! ## Claim C10: the Pool constructor mutates the caller's tribe set -/

/-- C10: confirmed. `Pool.__init__` executes `active_tribes.add(Tribe.NEUTRAL)`
on the caller's set object, so after construction the caller's set contains
`NEUTRAL` (and nothing else was added or removed). -/
theorem pool_init_adds_neutral_to_caller_set (S : List Tribe) :
    Tribe.NEUTRAL ∈ (Pool.init S).2 ∧
    ∀ t, t ∈ (Pool.init S).2 ↔ (t ∈ S ∨ t = Tribe.NEUTRAL) := by
  constructor
  · show Tribe.NEUTRAL ∈ setAdd S Tribe.NEUTRAL
    unfold setAdd
    by_cases h : Tribe.NEUTRAL ∈ S
    · rw [if_pos h]
      exact h
    · simp [h]
  · intro t
    show t ∈ setAdd S Tribe.NEUTRAL ↔ _
    unfold setAdd
    by_cases h : Tribe.NEUTRAL ∈ S
    · simp only [if_pos h]
      exact ⟨Or.inl, fun hc => hc.elim id (fun ht => ht ▸ h)⟩
    · simp only [if_neg h, List.mem_append, List.mem_singleton]

end BgBot
